import Mathlib

/-!
Verification development for the chargeback-dashboard aggregation pipeline
(`generate_dashboard.py`).  The data model and every operation below are
shallow embeddings of the Python source: amounts are modelled as exact
rationals, pandas timestamps as year/month/day triples, nullable columns as
`Option`, and the pandas boolean masks / groupbys as list filters and folds.
-/

namespace CB

/-- A calendar timestamp; only the year/month/day projection matters to the
aggregation (pandas `to_period("M")` keeps year and month). -/
structure Date where
  year : Nat
  month : Nat
  day : Nat
deriving DecidableEq, Repr

/-- The `pd.Period("M")` projection of a date, encoded as a linear month index. -/
def monthOf (d : Date) : Nat := d.year * 12 + d.month

/-- One row of the joined chargeback dataframe (`fetch_data` columns that the
aggregation reads).  Nullable SQL columns are `Option`; `is_fought` is the
`IF(fcbs.sift_id IS NOT NULL, 1, 0)` flag. -/
structure Record where
  user_id : Nat
  amount : ℚ
  operator : Option String
  type : Option String
  bank : Option String
  country : Option String
  payment_date : Option Date
  chargeback_received_date : Option Date
  is_fought : Bool
  status : Option String
  submission_date : Option Date
  result_date : Option Date

/-- The six keys of `STATUS_ORDER[:-1]` (the raw `None` is excluded). -/
def STATUS6 : List String :=
  ["Won", "Accepted", "Documents submitted", "Active", "N/A (fought)", "N/A (non-fought)"]

/-- The values `raw_status` may take according to the fixed enumeration
(the column is nullable). -/
def statusEnum : List (Option String) :=
  [none, some "Won", some "Accepted", some "Documents submitted", some "Active"]

/-- Embeds `df["dashboard_status"]` from `process_data`: the raw status when present,
else the synthetic fought / non-fought bucket chosen by `is_fought`. -/
def dashboard_status (r : Record) : String :=
  match r.status with
  | some s => s
  | none => if r.is_fought then "N/A (fought)" else "N/A (non-fought)"

/-- Embeds `df["dashboard_date"]` from `process_data`: `submission_date` with
`payment_date` as fallback (the "representative date" of the spec). -/
def dashboard_date (r : Record) : Option Date :=
  match r.submission_date with
  | some d => some d
  | none => r.payment_date

/-- Embeds `len(df)`. -/
def total_records (rs : List Record) : Nat := rs.length

/-- Embeds `df["amount"].sum()`. -/
def total_amount (rs : List Record) : ℚ := (rs.map Record.amount).sum

/-- Embeds `won_mask.sum()` where `won_mask = df["status"] == "Won"`. -/
def won_count (rs : List Record) : Nat :=
  rs.countP (fun r => r.status == some "Won")

/-- Embeds `lost_mask.sum()` where `lost_mask = df["status"] == "Accepted"`. -/
def lost_count (rs : List Record) : Nat :=
  rs.countP (fun r => r.status == some "Accepted")

/-- Embeds `fought_mask.sum()` where `fought_mask = df["is_fought"] == 1`. -/
def fought_count (rs : List Record) : Nat :=
  rs.countP (fun r => r.is_fought)

/-- Embeds `df.loc[won_mask, "amount"].sum()`. -/
def recovered_amount (rs : List Record) : ℚ :=
  ((rs.filter (fun r => r.status == some "Won")).map Record.amount).sum

/-- Embeds `df.loc[lost_mask, "amount"].sum()`. -/
def lost_amount (rs : List Record) : ℚ :=
  ((rs.filter (fun r => r.status == some "Accepted")).map Record.amount).sum

/-- Embeds `df.loc[fought_mask, "amount"].sum()`. -/
def fought_amount (rs : List Record) : ℚ :=
  ((rs.filter (fun r => r.is_fought)).map Record.amount).sum

/-- Embeds `df[df["is_fought"] == 1]`, the slice the disputed-only bundle is built
from. -/
def fought_df (rs : List Record) : List Record :=
  rs.filter (fun r => r.is_fought)

/-- Rounding of a rational in the Python manner to the nearest integer
(`round(x)`: ties go to the even integer). -/
def roundHalfEven (x : ℚ) : ℤ :=
  let n := ⌊x⌋
  let f := x - n
  if f < 1/2 then n
  else if 1/2 < f then n + 1
  else if n % 2 = 0 then n else n + 1

/-- The Python `round(x, 1)` on an exact rational. -/
def round1 (x : ℚ) : ℚ := (roundHalfEven (x * 10) : ℚ) / 10

/-- The raw `success_rate` expression of `_aggregate_dashboard_metrics`:
`won / (won + lost) * 100` guarded to `0` on a zero denominator. -/
def success_rate_raw (rs : List Record) : ℚ :=
  let w := won_count rs
  let l := lost_count rs
  if w + l = 0 then 0 else (w : ℚ) / ((w : ℚ) + (l : ℚ)) * 100

/-- The scalar emitted in the bundle: `round(float(success_rate), 1)`. -/
def success_rate (rs : List Record) : ℚ := round1 (success_rate_raw rs)

/-- Embeds `status_summary[s]["count"]`: size of the `dashboard_status == s` mask. -/
def statusCount (rs : List Record) (s : String) : Nat :=
  rs.countP (fun r => dashboard_status r == s)

/-- Embeds `status_summary[s]["amount"]`: amount sum over the `dashboard_status == s`
mask. -/
def statusAmount (rs : List Record) (s : String) : ℚ :=
  ((rs.filter (fun r => dashboard_status r == s)).map Record.amount).sum

/-- The month key a record contributes under a given date column:
`pd.to_datetime(df_temp[date_col]).dt.to_period("M")`, `None` propagating. -/
def basisMonth (dcol : Record → Option Date) (r : Record) : Option Nat :=
  (dcol r).map monthOf

/-- Embeds `months_sorted = sorted(df_temp["temp_month"].unique())` after
`dropna(subset=["temp_month"])`: the distinct months of the chosen date
column, sorted ascending. -/
def tsMonths (dcol : Record → Option Date) (rs : List Record) : List Nat :=
  List.insertionSort (· ≤ ·) ((rs.filterMap (basisMonth dcol)).dedup)

/-- Embeds `by_status[s]` of `_get_time_series`: for each month (in sorted order) the
amount sum of records of that month whose `dashboard_status` is `s`.  (The
source first drops null-month rows; a null month never equals a concrete
month, so the filter below is the same mask.) -/
def tsStatusAmounts (dcol : Record → Option Date) (rs : List Record) (s : String) : List ℚ :=
  (tsMonths dcol rs).map (fun m =>
    ((rs.filter (fun r => basisMonth dcol r == some m && dashboard_status r == s)).map
      Record.amount).sum)

/-- Embeds `count_by_status[s]` of `_get_time_series`: per-month record counts. -/
def tsStatusCounts (dcol : Record → Option Date) (rs : List Record) (s : String) : List Nat :=
  (tsMonths dcol rs).map (fun m =>
    rs.countP (fun r => basisMonth dcol r == some m && dashboard_status r == s))

/-- The `success` list of `_get_time_series`: per-month
`round(won_m / (won_m + lost_m) * 100, 1)`, `0` on a zero denominator. -/
def tsSuccess (dcol : Record → Option Date) (rs : List Record) : List ℚ :=
  (tsMonths dcol rs).map (fun m =>
    let w := rs.countP (fun r => basisMonth dcol r == some m && r.status == some "Won")
    let l := rs.countP (fun r => basisMonth dcol r == some m && r.status == some "Accepted")
    if w + l = 0 then 0 else round1 ((w : ℚ) / ((w : ℚ) + (l : ℚ)) * 100))

/-- The date column of the first time series (`_get_time_series("payment_date")`). -/
def payBasis (r : Record) : Option Date := r.payment_date

/-- The date column of the second time series
(`_get_time_series("chargeback_received_date")`). -/
def cbBasis (r : Record) : Option Date := r.chargeback_received_date

/-- One row of a ranking table: name, record count, amount sum. -/
abbrev RankRow : Type := String × Nat × ℚ

/-- The `sort_values("count", ascending=False)` ordering on ranking rows. -/
def rankRel (a b : RankRow) : Prop := b.2.1 ≤ a.2.1

instance : DecidableRel rankRel := fun a b => Nat.decLe b.2.1 a.2.1

instance : IsTotal RankRow rankRel := ⟨fun a b => Nat.le_total b.2.1 a.2.1⟩

instance : IsTrans RankRow rankRel := ⟨fun _ _ _ h₁ h₂ => Nat.le_trans h₂ h₁⟩

/-- Embeds `df.groupby(key).agg(count=..., total=("amount","sum"))`: one row per
distinct non-null key value (pandas drops null group keys), carrying the
group size and amount sum. -/
def groupAgg (key : Record → Option String) (rs : List Record) : List RankRow :=
  ((rs.filterMap key).dedup).map (fun k =>
    (k, rs.countP (fun r => key r == some k),
        ((rs.filter (fun r => key r == some k)).map Record.amount).sum))

/-- Embeds `.sort_values("count", ascending=False).head(10)` applied to a grouped
aggregate. -/
def rankTop (key : Record → Option String) (rs : List Record) : List RankRow :=
  (List.insertionSort rankRel (groupAgg key rs)).take 10

/-- The `top_operators` table. -/
def top_operators (rs : List Record) : List RankRow :=
  rankTop (fun r => r.operator) rs

/-- The `top_operators_won` table (built from `df[df["status"] == "Won"]`). -/
def top_operators_won (rs : List Record) : List RankRow :=
  rankTop (fun r => r.operator) (rs.filter (fun r => r.status == some "Won"))

/-- The `top_banks_total` table. -/
def top_banks_total (rs : List Record) : List RankRow :=
  rankTop (fun r => r.bank) rs

/-- The `top_banks_won` table (built from `df[df["status"] == "Won"]`). -/
def top_banks_won (rs : List Record) : List RankRow :=
  rankTop (fun r => r.bank) (rs.filter (fun r => r.status == some "Won"))

/-- Embeds `.str.lower()` over the characters of a string. -/
def lowerCL (l : List Char) : List Char := l.map Char.toLower

/-- Embeds `.str.upper()` over the characters of a string. -/
def upperCL (l : List Char) : List Char := l.map Char.toUpper

/-- Whether the first character list starts the second. -/
def startsWithCL : List Char → List Char → Bool
  | [], _ => true
  | _ :: _, [] => false
  | a :: p, b :: s => a == b && startsWithCL p s

/-- The Python substring containment `p in t` over character lists. -/
def containsSeq (p : List Char) : List Char → Bool
  | [] => p.isEmpty
  | b :: s => startsWithCL p (b :: s) || containsSeq p s

/-- Embeds `types_raw = df["type"].fillna("desconocido").str.lower()` for one row. -/
def typeNorm (r : Record) : List Char :=
  lowerCL ((r.type.getD "desconocido").toList)

/-- Embeds `map_cc_type` of the source: ordered substring classification of a
lower-cased card-type string. -/
def map_cc_type (t : List Char) : String :=
  if containsSeq ("visa".toList) t then "VISA"
  else if containsSeq ("mastercard".toList) t || containsSeq ("master".toList) t then "MasterCard"
  else if containsSeq ("amex".toList) t || containsSeq ("american".toList) t then "AMEX"
  else "Otro"

/-- Embeds `mapped_types = types_raw.apply(map_cc_type)`. -/
def mapped_types (rs : List Record) : List String :=
  rs.map (fun r => map_cc_type (typeNorm r))

/-- The entry of `type_counts = mapped_types.value_counts()` at class `c`
(0 when the class is absent). -/
def type_count (rs : List Record) (c : String) : Nat :=
  (mapped_types rs).count c

/-- One bucket of a country `value_counts`: country name and count. -/
abbrev CntRow : Type := List Char × Nat

/-- Descending-count ordering used by `value_counts()`. -/
def cntRel (a b : CntRow) : Prop := b.2 ≤ a.2

instance : DecidableRel cntRel := fun a b => Nat.decLe b.2 a.2

instance : IsTotal CntRow cntRel := ⟨fun a b => Nat.le_total b.2 a.2⟩

instance : IsTrans CntRow cntRel := ⟨fun _ _ _ h₁ h₂ => Nat.le_trans h₂ h₁⟩

/-- Embeds `country_raw = df["country"].fillna("Desconocido").str.upper()` for one
row. -/
def countryNorm (r : Record) : List Char :=
  upperCL ((r.country.getD "Desconocido").toList)

/-- Embeds `value_counts()`: one (value, occurrence-count) bucket per distinct value,
sorted by descending count. -/
def value_counts (l : List (List Char)) : List CntRow :=
  List.insertionSort cntRel (l.dedup.map (fun k => (k, l.count k)))

/-- pandas `Series.__setitem__` on a label index: overwrite the bucket with
that label when present, else append it at the end. -/
def setIndex : List CntRow → List Char → Nat → List CntRow
  | [], k, v => [(k, v)]
  | (k₀, c) :: t, k, v => if k₀ == k then (k, v) :: t else (k₀, c) :: setIndex t k v

/-- The label of the merged remainder bucket. -/
def OTRO : List Char := "OTRO".toList

/-- Embeds `country_counts` after the top-4 merge: when more than 4 distinct
countries exist, keep the top 4 and set bucket "OTRO" to the sum of the
remaining counts. -/
def country_counts (rs : List Record) : List CntRow :=
  let cc := value_counts (rs.map countryNorm)
  if 4 < cc.length then
    setIndex (cc.take 4) OTRO (((cc.drop 4).map Prod.snd).sum)
  else cc

/-- Embeds `country_donut_values`. -/
def country_donut_values (rs : List Record) : List Nat :=
  (country_counts rs).map Prod.snd

/-- A record with every nullable field absent; concrete scenarios below
override the fields they exercise. -/
def baseRec : Record :=
  { user_id := 0, amount := 0, operator := none, type := none, bank := none,
    country := none, payment_date := none, chargeback_received_date := none,
    is_fought := false, status := none, submission_date := none,
    result_date := none }

/-- A record whose only populated field is a lost (`Accepted`) status. -/
def lostRec : Record := { baseRec with status := some "Accepted" }

/-- A record with a won status and amount 100. -/
def wonRec : Record := { baseRec with status := some "Won", amount := 100 }

/-- A disputed record with no outcome yet. -/
def foughtRec : Record := { baseRec with is_fought := true }

/-- January 2024 (month index 24289). -/
def janDate : Date := { year := 2024, month := 1, day := 10 }

/-- February 2024 (month index 24290). -/
def febDate : Date := { year := 2024, month := 2, day := 5 }

/-- A record submitted in January 2024 but paid in February 2024: its
representative date and its payment date fall in different months. -/
def splitRec : Record :=
  { baseRec with submission_date := some janDate, payment_date := some febDate }

/-- A won record paid in February 2024 (time-series witnesses). -/
def febWonRec : Record :=
  { baseRec with payment_date := some febDate, chargeback_received_date := some febDate,
                 status := some "Won" }

/-- A record with the given operator. -/
def opRec (o : String) : Record := { baseRec with operator := some o }

/-- A record with the given card type (nullable). -/
def tRec (t : Option String) : Record := { baseRec with type := t }

/-- The five-record card-type scenario of the spec. -/
def typeScenario : List Record :=
  [tRec (some "Visa"), tRec (some "MASTERCARD"), tRec (some "amex debit"),
   tRec (some "discover"), tRec none]

/-- A record with the given country. -/
def cRec (c : String) : Record := { baseRec with country := some c }

/-- The six-country scenario of the spec: counts 10, 8, 6, 4, 2, 1. -/
def countryScenario : List Record :=
  List.replicate 10 (cRec "AA") ++ List.replicate 8 (cRec "BB") ++
  List.replicate 6 (cRec "CC") ++ List.replicate 4 (cRec "DD") ++
  List.replicate 2 (cRec "EE") ++ [cRec "FF"]

/-- A record set in which the literal country "OTRO" ranks in the top 4:
counts OTRO:5, AA:4, BB:3, CC:2, DD:1. -/
def otroRs : List Record :=
  List.replicate 5 (cRec "OTRO") ++ List.replicate 4 (cRec "AA") ++
  List.replicate 3 (cRec "BB") ++ List.replicate 2 (cRec "CC") ++ [cRec "DD"]

/-- Two records, one of them with a null operator. -/
def nullOpRs : List Record := [baseRec, opRec "A"]

end CB

namespace CB

/-! ### Rounding helper lemmas -/

theorem roundHalfEven_nonneg {x : ℚ} (hx : 0 ≤ x) : 0 ≤ roundHalfEven x := by
  have h0 : (0 : ℤ) ≤ ⌊x⌋ := Int.floor_nonneg.mpr hx
  unfold roundHalfEven
  dsimp only
  split_ifs <;> omega

theorem roundHalfEven_le {x : ℚ} {B : ℤ} (hx : x ≤ (B : ℚ)) : roundHalfEven x ≤ B := by
  have hfl : ⌊x⌋ ≤ B := by
    have h := Int.floor_le_floor hx
    simpa using h
  have hxf : (⌊x⌋ : ℚ) ≤ x := Int.floor_le x
  unfold roundHalfEven
  dsimp only
  split_ifs with h₁ h₂ h₃
  · exact hfl
  · have hlt : (⌊x⌋ : ℚ) < (B : ℚ) := by
      have hf2 : (1 : ℚ)/2 < x - ⌊x⌋ := h₂
      linarith
    have hZ : ⌊x⌋ < B := by exact_mod_cast hlt
    omega
  · exact hfl
  · have hhalf : (1 : ℚ)/2 ≤ x - ⌊x⌋ := not_lt.mp h₁
    have hlt : (⌊x⌋ : ℚ) < (B : ℚ) := by linarith
    have hZ : ⌊x⌋ < B := by exact_mod_cast hlt
    omega

theorem round1_nonneg {x : ℚ} (hx : 0 ≤ x) : 0 ≤ round1 x := by
  unfold round1
  have h : (0 : ℤ) ≤ roundHalfEven (x * 10) := roundHalfEven_nonneg (by linarith)
  have h' : (0 : ℚ) ≤ (roundHalfEven (x * 10) : ℚ) := by exact_mod_cast h
  positivity

theorem round1_le_100 {x : ℚ} (hx : x ≤ 100) : round1 x ≤ 100 := by
  unfold round1
  have h : roundHalfEven (x * 10) ≤ (1000 : ℤ) := roundHalfEven_le (by push_cast; linarith)
  have h' : (roundHalfEven (x * 10) : ℚ) ≤ 1000 := by exact_mod_cast h
  linarith

theorem round1_zero : round1 0 = 0 := by
  have h : roundHalfEven 0 = 0 := by
    unfold roundHalfEven
    norm_num
  unfold round1
  rw [show (0 : ℚ) * 10 = 0 by ring, h]
  norm_num

theorem success_rate_raw_nonneg (rs : List Record) : 0 ≤ success_rate_raw rs := by
  unfold success_rate_raw
  dsimp only
  split_ifs with h
  · exact le_refl 0
  · have hw : (0 : ℚ) ≤ (won_count rs : ℚ) := by positivity
    have hd : (0 : ℚ) < (won_count rs : ℚ) + (lost_count rs : ℚ) := by
      have hpos : 0 < won_count rs + lost_count rs := Nat.pos_of_ne_zero h
      exact_mod_cast hpos
    positivity

theorem success_rate_raw_le_100 (rs : List Record) : success_rate_raw rs ≤ 100 := by
  unfold success_rate_raw
  dsimp only
  split_ifs with h
  · norm_num
  · have hd : (0 : ℚ) < (won_count rs : ℚ) + (lost_count rs : ℚ) := by
      have hpos : 0 < won_count rs + lost_count rs := Nat.pos_of_ne_zero h
      exact_mod_cast hpos
    have hwle : (won_count rs : ℚ) ≤ (won_count rs : ℚ) + (lost_count rs : ℚ) := by
      have : (0 : ℚ) ≤ (lost_count rs : ℚ) := by positivity
      linarith
    have hq : (won_count rs : ℚ) / ((won_count rs : ℚ) + (lost_count rs : ℚ)) ≤ 1 :=
      (div_le_one hd).mpr hwle
    nlinarith

end CB

namespace CB

/-- Claim C1 (amended): the scalar success rate equals
`round(won / (won + lost) * 100, 1)` when `won + lost > 0`, equals `0` when
`won + lost == 0`, and always lies in `[0, 100]`.  (The original "equals 0
exactly when the denominator is 0" fails: the rate is also 0 whenever
`won_count = 0` with a positive denominator.) -/
theorem C1_success_rate_scalar (rs : List Record) :
    (won_count rs + lost_count rs = 0 → success_rate rs = 0) ∧
    (0 < won_count rs + lost_count rs →
      success_rate rs =
        round1 ((won_count rs : ℚ) / ((won_count rs : ℚ) + (lost_count rs : ℚ)) * 100)) ∧
    0 ≤ success_rate rs ∧ success_rate rs ≤ 100 := by
  refine ⟨?_, ?_, ?_, ?_⟩
  · intro h
    unfold success_rate success_rate_raw
    dsimp only
    rw [if_pos h]
    exact round1_zero
  · intro h
    unfold success_rate success_rate_raw
    dsimp only
    rw [if_neg (Nat.pos_iff_ne_zero.mp h)]
  · exact round1_nonneg (success_rate_raw_nonneg rs)
  · exact round1_le_100 (success_rate_raw_le_100 rs)

unseal Rat.add Rat.mul Rat.inv Rat.sub in
/-- Claim C1 counterexample: on a single lost record the success rate is 0
while the denominator `won_count + lost_count` is 1, refuting
"success_rate == 0 iff the denominator is 0". -/
theorem C1_counterexample :
    success_rate [lostRec] = 0 ∧ won_count [lostRec] + lost_count [lostRec] = 1 :=
  ⟨by decide, by decide⟩

/-- Claim C1 witness: the amended theorem applied to the one-won-record set. -/
theorem C1_success_rate_scalar_witness :
    0 < won_count [wonRec] + lost_count [wonRec] ∧
    success_rate [wonRec] =
      round1 ((won_count [wonRec] : ℚ) /
        ((won_count [wonRec] : ℚ) + (lost_count [wonRec] : ℚ)) * 100) ∧
    0 ≤ success_rate [wonRec] ∧ success_rate [wonRec] ≤ 100 :=
  ⟨by decide, (C1_success_rate_scalar [wonRec]).2.1 (by decide),
   (C1_success_rate_scalar [wonRec]).2.2.1, (C1_success_rate_scalar [wonRec]).2.2.2⟩

/-- Claim C8: in the disputed-only bundle (the aggregator applied to
`df[df["is_fought"] == 1]`), `fought_count` equals the `total_records` of
that bundle and `fought_amount` equals its `total_amount`. -/
theorem C8_fought_bundle (rs : List Record) :
    fought_count (fought_df rs) = total_records (fought_df rs) ∧
    fought_amount (fought_df rs) = total_amount (fought_df rs) := by
  constructor
  · unfold fought_count total_records fought_df
    rw [List.countP_eq_length]
    intro a ha
    exact List.of_mem_filter ha
  · unfold fought_amount total_amount fought_df
    rw [List.filter_filter]
    simp

end CB

namespace CB

/-! ### Partition helper lemmas -/

theorem sum_map_ite_of_not_mem {α M : Type} [DecidableEq α] [AddCommMonoid M]
    {x : α} (v : M) {L : List α} (hx : x ∉ L) :
    (L.map (fun s => if x = s then v else 0)).sum = 0 := by
  induction L with
  | nil => simp
  | cons a t ih =>
    simp only [List.mem_cons, not_or] at hx
    simp [if_neg hx.1, ih hx.2]

theorem sum_map_ite_of_mem {α M : Type} [DecidableEq α] [AddCommMonoid M]
    {x : α} (v : M) {L : List α} (hm : x ∈ L) (hn : L.Nodup) :
    (L.map (fun s => if x = s then v else 0)).sum = v := by
  induction L with
  | nil => cases hm
  | cons a t ih =>
    rcases List.mem_cons.mp hm with h | h
    · subst h
      have hx : x ∉ t := (List.nodup_cons.mp hn).1
      simp [sum_map_ite_of_not_mem v hx]
    · have hne : ¬x = a := by
        rintro rfl
        exact (List.nodup_cons.mp hn).1 h
      simp [if_neg hne, ih h (List.nodup_cons.mp hn).2]

theorem dash_mem_STATUS6 {r : Record} (hr : r.status ∈ statusEnum) :
    dashboard_status r ∈ STATUS6 := by
  have h : r.status = none ∨ r.status = some "Won" ∨ r.status = some "Accepted" ∨
      r.status = some "Documents submitted" ∨ r.status = some "Active" := by
    simpa [statusEnum] using hr
  rcases h with h | h | h | h | h
  · cases hf : r.is_fought <;> simp [dashboard_status, h, hf, STATUS6]
  all_goals simp [dashboard_status, h, STATUS6]

theorem statusCount_sum : ∀ rs : List Record, (∀ r ∈ rs, r.status ∈ statusEnum) →
    (STATUS6.map (statusCount rs)).sum = rs.length := by
  intro rs
  induction rs with
  | nil => intro _; decide
  | cons r t ih =>
    intro h
    have hr : r.status ∈ statusEnum := h r (List.mem_cons_self _ _)
    have ht : ∀ x ∈ t, x.status ∈ statusEnum := fun x hx => h x (List.mem_cons_of_mem _ hx)
    have hkey : ∀ s, statusCount (r :: t) s =
        statusCount t s + (if dashboard_status r = s then 1 else 0) := by
      intro s
      unfold statusCount
      rw [List.countP_cons]
      congr 1
      simp [beq_iff_eq]
    have hmap : STATUS6.map (statusCount (r :: t)) =
        STATUS6.map (fun s => statusCount t s + (if dashboard_status r = s then 1 else 0)) :=
      List.map_congr_left (fun s _ => hkey s)
    rw [hmap, List.sum_map_add, ih ht,
      sum_map_ite_of_mem 1 (dash_mem_STATUS6 hr) (by decide)]
    simp

theorem statusAmount_sum : ∀ rs : List Record, (∀ r ∈ rs, r.status ∈ statusEnum) →
    (STATUS6.map (statusAmount rs)).sum = total_amount rs := by
  intro rs
  induction rs with
  | nil => intro _; simp [STATUS6, statusAmount, total_amount]
  | cons r t ih =>
    intro h
    have hr : r.status ∈ statusEnum := h r (List.mem_cons_self _ _)
    have ht : ∀ x ∈ t, x.status ∈ statusEnum := fun x hx => h x (List.mem_cons_of_mem _ hx)
    have hkey : ∀ s, statusAmount (r :: t) s =
        (if dashboard_status r = s then r.amount else 0) + statusAmount t s := by
      intro s
      unfold statusAmount
      by_cases hds : dashboard_status r = s
      · simp [List.filter_cons, hds]
      · simp [List.filter_cons, hds]
    have hmap : STATUS6.map (statusAmount (r :: t)) =
        STATUS6.map (fun s => (if dashboard_status r = s then r.amount else 0) + statusAmount t s) :=
      List.map_congr_left (fun s _ => hkey s)
    rw [hmap, List.sum_map_add, ih ht,
      sum_map_ite_of_mem r.amount (dash_mem_STATUS6 hr) (by decide)]
    simp [total_amount]

/-- Claim C3: whenever every raw status lies in the fixed enumeration (or is
null), the six status-summary counts sum to `total_records`: every record
falls into exactly one bucket, null-status records going to the synthetic
fought / non-fought buckets according to `is_fought`. -/
theorem C3_status_partition (rs : List Record) (h : ∀ r ∈ rs, r.status ∈ statusEnum) :
    (STATUS6.map (statusCount rs)).sum = total_records rs ∧
    (∀ r : Record, r.status = none →
      dashboard_status r = if r.is_fought then "N/A (fought)" else "N/A (non-fought)") := by
  refine ⟨statusCount_sum rs h, ?_⟩
  intro r hr
  unfold dashboard_status
  rw [hr]

/-- Claim C3 witness: the partition theorem applied to a three-record set
(one won, one disputed-without-outcome, one undisputed-without-status). -/
theorem C3_status_partition_witness :
    (∀ r ∈ [wonRec, foughtRec, baseRec], r.status ∈ statusEnum) ∧
    (STATUS6.map (statusCount [wonRec, foughtRec, baseRec])).sum =
      total_records [wonRec, foughtRec, baseRec] :=
  ⟨by decide, (C3_status_partition [wonRec, foughtRec, baseRec] (by decide)).1⟩

/-- Claim C10: under the same enumeration hypothesis, the six status-summary
amounts sum to `total_amount` (exact rational arithmetic): the status
partition preserves the amount total as well as the record count. -/
theorem C10_amount_partition (rs : List Record) (h : ∀ r ∈ rs, r.status ∈ statusEnum) :
    (STATUS6.map (statusAmount rs)).sum = total_amount rs :=
  statusAmount_sum rs h

/-- Claim C10 witness: the amount-partition theorem applied to a concrete
won / lost / disputed record set. -/
theorem C10_amount_partition_witness :
    (∀ r ∈ [wonRec, lostRec, foughtRec], r.status ∈ statusEnum) ∧
    (STATUS6.map (statusAmount [wonRec, lostRec, foughtRec])).sum =
      total_amount [wonRec, lostRec, foughtRec] :=
  ⟨by decide, C10_amount_partition [wonRec, lostRec, foughtRec] (by decide)⟩

end CB

namespace CB

/-! ### Time-series helper lemmas -/

theorem mem_tsMonths (dcol : Record → Option Date) (rs : List Record) (m : Nat) :
    m ∈ tsMonths dcol rs ↔ ∃ r ∈ rs, basisMonth dcol r = some m := by
  unfold tsMonths
  rw [List.mem_insertionSort, List.mem_dedup, List.mem_filterMap]

theorem length_insertionSort_eq {α : Type} (r : α → α → Prop) [DecidableRel r] (l : List α) :
    (List.insertionSort r l).length = l.length :=
  (List.perm_insertionSort r l).length_eq

theorem tsMonths_length (dcol : Record → Option Date) (rs : List Record) :
    (tsMonths dcol rs).length = ((rs.filterMap (basisMonth dcol)).dedup).length :=
  length_insertionSort_eq _ _

theorem tsStatusAmounts_length (dcol : Record → Option Date) (rs : List Record) (s : String) :
    (tsStatusAmounts dcol rs s).length = ((rs.filterMap (basisMonth dcol)).dedup).length := by
  unfold tsStatusAmounts
  rw [List.length_map, tsMonths_length]

theorem tsStatusCounts_length (dcol : Record → Option Date) (rs : List Record) (s : String) :
    (tsStatusCounts dcol rs s).length = ((rs.filterMap (basisMonth dcol)).dedup).length := by
  unfold tsStatusCounts
  rw [List.length_map, tsMonths_length]

theorem ts_absent_zero (dcol : Record → Option Date) (rs : List Record) (s : String) (i : Nat)
    (h₁ : i < (tsMonths dcol rs).length)
    (h₂ : i < (tsStatusAmounts dcol rs s).length)
    (h₃ : i < (tsStatusCounts dcol rs s).length)
    (habs : ∀ r ∈ rs, basisMonth dcol r = some ((tsMonths dcol rs)[i]) →
      dashboard_status r ≠ s) :
    (tsStatusAmounts dcol rs s)[i] = 0 ∧ (tsStatusCounts dcol rs s)[i] = 0 := by
  have hfilter : ∀ r ∈ rs,
      ¬((basisMonth dcol r == some ((tsMonths dcol rs)[i]) && dashboard_status r == s) = true) := by
    intro r hrm
    simp only [Bool.and_eq_true, beq_iff_eq, not_and]
    exact fun hb => habs r hrm hb
  constructor
  · have hA : (tsStatusAmounts dcol rs s)[i] =
        ((rs.filter (fun r =>
          basisMonth dcol r == some ((tsMonths dcol rs)[i]) && dashboard_status r == s)).map
            Record.amount).sum := by
      simp only [tsStatusAmounts, List.getElem_map]
    rw [hA, List.filter_eq_nil_iff.mpr hfilter]
    simp
  · have hC : (tsStatusCounts dcol rs s)[i] =
        rs.countP (fun r =>
          basisMonth dcol r == some ((tsMonths dcol rs)[i]) && dashboard_status r == s) := by
      simp only [tsStatusCounts, List.getElem_map]
    rw [hC]
    exact List.countP_eq_zero.mpr hfilter

/-- Claim C2 counterexample: a record submitted in January 2024 but paid in
February 2024 has representative date in January, yet the payment-basis time
series buckets it into February — the bucket is not derived from the
representative date. -/
theorem C2_counterexample :
    (dashboard_date splitRec).map monthOf = some (monthOf janDate) ∧
    tsMonths payBasis [splitRec] = [monthOf febDate] ∧
    monthOf janDate ∉ tsMonths payBasis [splitRec] ∧
    monthOf janDate ≠ monthOf febDate :=
  ⟨by decide, by decide, by decide, by decide⟩

/-- Claim C2 (amended): each time series buckets records by its own date
basis — the payment series by the month of `payment_date` and the received
series by the month of `chargeback_received_date` (a month appears exactly
when some record has that basis date in it); the representative
`dashboard_date` (submission date, falling back to payment date) is computed
but is not what the time series bucket by. -/
theorem C2_bucketing_by_basis (rs : List Record) :
    (∀ m : Nat, m ∈ tsMonths payBasis rs ↔ ∃ r ∈ rs, basisMonth payBasis r = some m) ∧
    (∀ m : Nat, m ∈ tsMonths cbBasis rs ↔ ∃ r ∈ rs, basisMonth cbBasis r = some m) ∧
    (∀ r : Record, r.submission_date = none → dashboard_date r = r.payment_date) ∧
    (∀ (r : Record) (d : Date), r.submission_date = some d → dashboard_date r = some d) := by
  refine ⟨mem_tsMonths payBasis rs, mem_tsMonths cbBasis rs, ?_, ?_⟩
  · intro r hr
    unfold dashboard_date
    rw [hr]
  · intro r d hr
    unfold dashboard_date
    rw [hr]

/-- Claim C2 witness: the amended characterisation applied to a concrete
one-record set paid in February 2024. -/
theorem C2_bucketing_by_basis_witness :
    monthOf febDate ∈ tsMonths payBasis [febWonRec] ∧
    dashboard_date splitRec = some janDate :=
  ⟨((C2_bucketing_by_basis [febWonRec]).1 (monthOf febDate)).mpr
      ⟨febWonRec, List.mem_cons_self _ _, by decide⟩,
   (C2_bucketing_by_basis []).2.2.2 splitRec janDate (by decide)⟩

/-- Claim C4: for both date bases, each per-status amount array and count
array has length equal to the number of distinct months present for that
basis (records with a null basis date are dropped), and a status-month
combination with no records yields entry 0 rather than omission. -/
theorem C4_dense_time_series (rs : List Record) (s : String) :
    (tsStatusAmounts payBasis rs s).length = ((rs.filterMap (basisMonth payBasis)).dedup).length ∧
    (tsStatusCounts payBasis rs s).length = ((rs.filterMap (basisMonth payBasis)).dedup).length ∧
    (tsStatusAmounts cbBasis rs s).length = ((rs.filterMap (basisMonth cbBasis)).dedup).length ∧
    (tsStatusCounts cbBasis rs s).length = ((rs.filterMap (basisMonth cbBasis)).dedup).length ∧
    (∀ (i : Nat) (h₁ : i < (tsMonths payBasis rs).length)
        (h₂ : i < (tsStatusAmounts payBasis rs s).length)
        (h₃ : i < (tsStatusCounts payBasis rs s).length),
      (∀ r ∈ rs, basisMonth payBasis r = some ((tsMonths payBasis rs)[i]) →
        dashboard_status r ≠ s) →
      (tsStatusAmounts payBasis rs s)[i] = 0 ∧ (tsStatusCounts payBasis rs s)[i] = 0) ∧
    (∀ (i : Nat) (h₁ : i < (tsMonths cbBasis rs).length)
        (h₂ : i < (tsStatusAmounts cbBasis rs s).length)
        (h₃ : i < (tsStatusCounts cbBasis rs s).length),
      (∀ r ∈ rs, basisMonth cbBasis r = some ((tsMonths cbBasis rs)[i]) →
        dashboard_status r ≠ s) →
      (tsStatusAmounts cbBasis rs s)[i] = 0 ∧ (tsStatusCounts cbBasis rs s)[i] = 0) :=
  ⟨tsStatusAmounts_length payBasis rs s, tsStatusCounts_length payBasis rs s,
   tsStatusAmounts_length cbBasis rs s, tsStatusCounts_length cbBasis rs s,
   fun i h₁ h₂ h₃ habs => ts_absent_zero payBasis rs s i h₁ h₂ h₃ habs,
   fun i h₁ h₂ h₃ habs => ts_absent_zero cbBasis rs s i h₁ h₂ h₃ habs⟩

/-- Claim C4 witness: the dense-matrix theorem applied to a single
February-2024 won record and the absent status "Accepted" at index 0. -/
theorem C4_dense_time_series_witness :
    (tsStatusAmounts payBasis [febWonRec] "Accepted").length =
      (([febWonRec].filterMap (basisMonth payBasis)).dedup).length ∧
    (tsStatusAmounts payBasis [febWonRec] "Accepted").get ⟨0, by decide⟩ = 0 ∧
    (tsStatusCounts payBasis [febWonRec] "Accepted").get ⟨0, by decide⟩ = 0 := by
  refine ⟨(C4_dense_time_series [febWonRec] "Accepted").1, ?_, ?_⟩
  · exact ((C4_dense_time_series [febWonRec] "Accepted").2.2.2.2.1 0 (by decide) (by decide)
      (by decide) (by decide)).1
  · exact ((C4_dense_time_series [febWonRec] "Accepted").2.2.2.2.1 0 (by decide) (by decide)
      (by decide) (by decide)).2

end CB

namespace CB

/-! ### Ranking helper lemmas -/

theorem rankTop_length_le (key : Record → Option String) (rs : List Record) :
    (rankTop key rs).length ≤ 10 := by
  unfold rankTop
  exact List.length_take_le 10 _

theorem rankTop_sorted (key : Record → Option String) (rs : List Record) :
    List.Sorted rankRel (rankTop key rs) := by
  unfold rankTop
  exact List.Pairwise.sublist (List.take_sublist 10 _)
    (List.sorted_insertionSort rankRel (groupAgg key rs))

theorem mem_rankTop_key (key : Record → Option String) (rs : List Record) :
    ∀ e ∈ rankTop key rs, ∃ r ∈ rs, key r = some e.1 := by
  intro e he
  have h1 : e ∈ List.insertionSort rankRel (groupAgg key rs) :=
    (List.take_sublist 10 _).subset he
  rw [List.mem_insertionSort] at h1
  unfold groupAgg at h1
  rcases List.mem_map.mp h1 with ⟨k, hk, hek⟩
  rcases List.mem_filterMap.mp (List.mem_dedup.mp hk) with ⟨r, hr, hkr⟩
  refine ⟨r, hr, ?_⟩
  rw [← hek]
  exact hkr

theorem filterMap_filter_isSome (key : Record → Option String) (rs : List Record) :
    (rs.filter (fun r => (key r).isSome)).filterMap key = rs.filterMap key := by
  induction rs with
  | nil => rfl
  | cons r t ih =>
    cases hk : key r with
    | none => simp [List.filter_cons, List.filterMap_cons, hk, ih]
    | some v => simp [List.filter_cons, List.filterMap_cons, hk, ih]

theorem countP_filter_isSome (key : Record → Option String) (k : String) (rs : List Record) :
    (rs.filter (fun r => (key r).isSome)).countP (fun r => key r == some k) =
      rs.countP (fun r => key r == some k) := by
  induction rs with
  | nil => rfl
  | cons r t ih =>
    cases hk : key r with
    | none => simp [List.filter_cons, List.countP_cons, hk, ih]
    | some v => simp [List.filter_cons, List.countP_cons, hk, ih]

theorem filter_key_filter_isSome (key : Record → Option String) (k : String) (rs : List Record) :
    (rs.filter (fun r => (key r).isSome)).filter (fun r => key r == some k) =
      rs.filter (fun r => key r == some k) := by
  induction rs with
  | nil => rfl
  | cons r t ih =>
    cases hk : key r with
    | none => simp [List.filter_cons, hk, ih]
    | some v => simp [List.filter_cons, hk, ih]

theorem groupAgg_filter_isSome (key : Record → Option String) (rs : List Record) :
    groupAgg key (rs.filter (fun r => (key r).isSome)) = groupAgg key rs := by
  unfold groupAgg
  rw [filterMap_filter_isSome]
  apply List.map_congr_left
  intro k _
  rw [countP_filter_isSome, filter_key_filter_isSome]

theorem rankTop_filter_isSome (key : Record → Option String) (rs : List Record) :
    rankTop key (rs.filter (fun r => (key r).isSome)) = rankTop key rs := by
  unfold rankTop
  rw [groupAgg_filter_isSome]

/-- Claim C5: each of the four ranking tables has at most 10 entries and is
sorted non-increasing by count (`rankRel`), and the won-only variants are the
plain rankings of the `raw_status == "Won"` sub-dataframe. -/
theorem C5_rankings (rs : List Record) :
    ((top_operators rs).length ≤ 10 ∧ List.Sorted rankRel (top_operators rs)) ∧
    ((top_operators_won rs).length ≤ 10 ∧ List.Sorted rankRel (top_operators_won rs)) ∧
    ((top_banks_total rs).length ≤ 10 ∧ List.Sorted rankRel (top_banks_total rs)) ∧
    ((top_banks_won rs).length ≤ 10 ∧ List.Sorted rankRel (top_banks_won rs)) ∧
    top_operators_won rs =
      rankTop (fun r => r.operator) (rs.filter (fun r => r.status == some "Won")) ∧
    top_banks_won rs =
      rankTop (fun r => r.bank) (rs.filter (fun r => r.status == some "Won")) :=
  ⟨⟨rankTop_length_le _ rs, rankTop_sorted _ rs⟩,
   ⟨rankTop_length_le _ _, rankTop_sorted _ _⟩,
   ⟨rankTop_length_le _ rs, rankTop_sorted _ rs⟩,
   ⟨rankTop_length_le _ _, rankTop_sorted _ _⟩, rfl, rfl⟩

/-- Claim C9: the name of every ranking entry comes from an actual non-null
operator (resp. bank) value; records with a null key are excluded entirely
(filtering them away changes nothing); and on a concrete two-record set with
one null operator the ranking counts sum to strictly less than
`total_records` even though at most 10 distinct non-null values exist. -/
theorem C9_null_key_exclusion (rs : List Record) :
    (∀ e ∈ top_operators rs, ∃ r ∈ rs, r.operator = some e.1) ∧
    (∀ e ∈ top_banks_total rs, ∃ r ∈ rs, r.bank = some e.1) ∧
    top_operators (rs.filter (fun r => (r.operator).isSome)) = top_operators rs ∧
    top_banks_total (rs.filter (fun r => (r.bank).isSome)) = top_banks_total rs ∧
    ((top_operators nullOpRs).map (fun e => e.2.1)).sum < total_records nullOpRs ∧
    ((nullOpRs.filterMap (fun r => r.operator)).dedup).length ≤ 10 :=
  ⟨mem_rankTop_key _ rs, mem_rankTop_key _ rs, rankTop_filter_isSome _ rs,
   rankTop_filter_isSome _ rs, by decide, by decide⟩

unseal Rat.add Rat.mul Rat.inv Rat.sub in
/-- Claim C9 witness: the name-origin conjunct applied to the concrete entry
of the two-record set with one null operator. -/
theorem C9_null_key_exclusion_witness :
    ("A", 1, (0 : ℚ)) ∈ top_operators nullOpRs ∧
    ∃ r ∈ nullOpRs, r.operator = some "A" :=
  ⟨by decide, (C9_null_key_exclusion nullOpRs).1 ("A", 1, (0 : ℚ)) (by decide)⟩

end CB

namespace CB

/-! ### Distribution helper lemmas -/

theorem map_cc_type_cases (t : List Char) :
    map_cc_type t = "VISA" ∨ map_cc_type t = "MasterCard" ∨
    map_cc_type t = "AMEX" ∨ map_cc_type t = "Otro" := by
  unfold map_cc_type
  split_ifs <;> simp

theorem type_count_sum : ∀ rs : List Record,
    type_count rs "VISA" + type_count rs "MasterCard" + type_count rs "AMEX" +
      type_count rs "Otro" = rs.length := by
  intro rs
  induction rs with
  | nil => decide
  | cons r t ih =>
    have hcons : ∀ c : String, type_count (r :: t) c =
        type_count t c + (if map_cc_type (typeNorm r) = c then 1 else 0) := by
      intro c
      unfold type_count mapped_types
      rw [List.map_cons, List.count_cons]
      congr 1
      simp [beq_iff_eq]
    rcases map_cc_type_cases (typeNorm r) with hv | hv | hv | hv <;>
      rw [hcons "VISA", hcons "MasterCard", hcons "AMEX", hcons "Otro", hv] <;>
      simp <;> omega

theorem count_instances (l : List (List Char)) (k : List Char) :
    l.count k = @List.count (List Char) instBEqOfDecidableEq k l := by
  induction l with
  | nil => rfl
  | cons a t ih =>
    simp only [List.count_cons]
    rw [ih]
    congr 1
    by_cases h : k = a <;> simp [h]

theorem sum_snd_value_counts (l : List (List Char)) :
    ((value_counts l).map Prod.snd).sum = l.length := by
  unfold value_counts
  have hperm := (List.perm_insertionSort cntRel (l.dedup.map (fun k => (k, l.count k)))).map
    Prod.snd
  rw [hperm.sum_eq, List.map_map]
  have hcomp : (Prod.snd ∘ fun k => (k, l.count k)) = fun k => l.count k := rfl
  rw [hcomp]
  have hcong : (l.dedup.map fun k => l.count k) =
      (l.dedup.map fun k => @List.count (List Char) instBEqOfDecidableEq k l) :=
    List.map_congr_left (fun k _ => count_instances l k)
  rw [hcong]
  exact List.sum_map_count_dedup_eq_length l

theorem mem_value_counts_fst {l : List (List Char)} {e : CntRow} (he : e ∈ value_counts l) :
    e.1 ∈ l := by
  unfold value_counts at he
  rw [List.mem_insertionSort] at he
  rcases List.mem_map.mp he with ⟨k, hk, hek⟩
  rw [← hek]
  exact List.mem_dedup.mp hk

theorem setIndex_of_not_mem (t : List CntRow) (k : List Char) (v : Nat)
    (h : ∀ e ∈ t, e.1 ≠ k) : setIndex t k v = t ++ [(k, v)] := by
  induction t with
  | nil => rfl
  | cons e t ih =>
    obtain ⟨k₀, c⟩ := e
    have hne : k₀ ≠ k := h (k₀, c) (List.mem_cons_self _ _)
    have hb : (k₀ == k) = false := beq_eq_false_iff_ne.mpr hne
    have ht : ∀ e ∈ t, e.1 ≠ k := fun e he => h e (List.mem_cons_of_mem _ he)
    simp [setIndex, hb, ih ht]

theorem country_donut_sum (rs : List Record) (h : ∀ r ∈ rs, countryNorm r ≠ OTRO) :
    (country_donut_values rs).sum = total_records rs := by
  unfold country_donut_values country_counts total_records
  by_cases hlen : 4 < (value_counts (rs.map countryNorm)).length
  · rw [if_pos hlen]
    have hkeys : ∀ e ∈ (value_counts (rs.map countryNorm)).take 4, e.1 ≠ OTRO := by
      intro e he
      have hcc : e ∈ value_counts (rs.map countryNorm) :=
        (List.take_sublist 4 _).subset he
      have hmem : e.1 ∈ rs.map countryNorm := mem_value_counts_fst hcc
      rcases List.mem_map.mp hmem with ⟨r, hr, hre⟩
      rw [← hre]
      exact h r hr
    rw [setIndex_of_not_mem _ _ _ hkeys, List.map_append, List.sum_append]
    simp only [List.map_cons, List.map_nil, List.sum_cons, List.sum_nil]
    have hsplit :
        (((value_counts (rs.map countryNorm)).take 4).map Prod.snd).sum +
          (((value_counts (rs.map countryNorm)).drop 4).map Prod.snd).sum =
        ((value_counts (rs.map countryNorm)).map Prod.snd).sum := by
      rw [← List.sum_append, ← List.map_append, List.take_append_drop]
    have htot : ((value_counts (rs.map countryNorm)).map Prod.snd).sum = rs.length := by
      rw [sum_snd_value_counts, List.length_map]
    omega
  · rw [if_neg hlen]
    rw [sum_snd_value_counts, List.length_map]

/-- Claim C6: the type distribution classifies each record via the ordered
lower-cased substring rules of `map_cc_type` and the four class counts
always sum to `total_records`; on the five-record scenario of the spec ("Visa",
"MASTERCARD", "amex debit", "discover", null) the distribution is
VISA 1, MasterCard 1, AMEX 1, other 2. -/
theorem C6_type_distribution (rs : List Record) :
    (type_count rs "VISA" + type_count rs "MasterCard" + type_count rs "AMEX" +
      type_count rs "Otro" = total_records rs) ∧
    (type_count typeScenario "VISA" = 1 ∧ type_count typeScenario "MasterCard" = 1 ∧
     type_count typeScenario "AMEX" = 1 ∧ type_count typeScenario "Otro" = 2) :=
  ⟨type_count_sum rs, by decide, by decide, by decide, by decide⟩

/-- Claim C7 counterexample: with country counts OTRO:5, AA:4, BB:3, CC:2,
DD:1 the literal country "OTRO" lands in the kept top 4 and the remainder
assignment overwrites its count, so the donut values are [1, 4, 3, 2] and
sum to 10, not `total_records = 15`. -/
theorem C7_counterexample :
    country_donut_values otroRs = [1, 4, 3, 2] ∧
    (country_donut_values otroRs).sum = 10 ∧ total_records otroRs = 15 :=
  ⟨by decide, by decide, by decide⟩

/-- Claim C7 (amended): the country distribution keeps the top 4 normalized
countries and merges the rest into an "OTRO" bucket; its values sum to
`total_records` provided no record has normalized country literally "OTRO"
(otherwise the merge overwrites the count of that country); the
six-country scenario with counts [10,8,6,4,2,1] yields [10,8,6,4] plus an
other-bucket of 3. -/
theorem C7_country_distribution :
    (∀ rs : List Record, (∀ r ∈ rs, countryNorm r ≠ OTRO) →
      (country_donut_values rs).sum = total_records rs) ∧
    country_donut_values countryScenario = [10, 8, 6, 4, 3] :=
  ⟨fun rs h => country_donut_sum rs h, by decide⟩

/-- Claim C7 witness: the amended sum property applied to the six-country
scenario (whose normalized countries are all distinct from "OTRO"). -/
theorem C7_country_distribution_witness :
    (∀ r ∈ countryScenario, countryNorm r ≠ OTRO) ∧
    (country_donut_values countryScenario).sum = total_records countryScenario :=
  ⟨by decide, C7_country_distribution.1 countryScenario (by decide)⟩

end CB
